import Mathlib

/-
  Verification development for the sitemap-diff repository.

  Shallow embedding of:
  - the Python string operations and `urllib.parse.urlparse` (as used by the code),
  - the notification fan-out layer (src/services/rss/notifier.py),
  - the Telegram/Email notifiers and the email bot (src/apps/email_bot.py),
  - the keyword aggregation (src/services/rss/commands.py and src/apps/email_bot.py),
  - the scheduler pass (src/apps/email_bot.py, scheduled_task),
  - the snapshot store and diff engine (RSSManager, services/rss/manager.py,
    which is not part of the provided sources; those two pieces are modelled
    from the specification, as marked in their doc comments).

  External I/O (Telegram bot calls, SMTP) is modelled by a `Transport` oracle
  deciding which outbound sends succeed, and a `World` state holding the file
  system (the set of existing dated-archive paths) and the ordered log of
  delivered messages.
-/

/-! ## Python string primitives -/

/-- Python `a or b` for strings, where `None` is represented by `""`
    (both are falsy, and the code only ever tests truthiness). -/
def pyOr (a b : String) : String := if a = "" then b else a

/-- The Unicode whitespace set stripped by Python `str.strip()`. -/
def isPySpace (c : Char) : Bool :=
  let n := c.toNat
  (9 ≤ n && n ≤ 13) || n = 32 || (28 ≤ n && n ≤ 31) || n = 0x85 || n = 0xa0 ||
    n = 0x1680 || (0x2000 ≤ n && n ≤ 0x200a) || n = 0x2028 || n = 0x2029 ||
    n = 0x202f || n = 0x205f || n = 0x3000

/-- Python `str.strip()` with no argument: removes leading and trailing whitespace. -/
def pyStrip (s : String) : String :=
  String.mk (((s.toList.dropWhile isPySpace).reverse.dropWhile isPySpace).reverse)

/-- Python `str.rstrip("/")`: removes all trailing slash characters. -/
def pyRstripSlashes (s : String) : String :=
  String.mk ((s.toList.reverse.dropWhile (fun c => c = '/')).reverse)

/-- Split a character list at the first occurrence of `sep`:
    returns the part before it and, when `sep` occurs, the part after it. -/
def splitFirst (sep : Char) : List Char → List Char × Option (List Char)
  | [] => ([], none)
  | c :: rest =>
    if c = sep then ([], some rest)
    else
      let r := splitFirst sep rest
      (c :: r.1, r.2)

/-- Python `str.split(sep)` for a single-character separator: always returns a
    non-empty list of (possibly empty) groups; `"".split(sep) == [""]`. -/
def splitAll (sep : Char) (cs : List Char) : List (List Char) :=
  cs.foldr
    (fun c acc =>
      match acc with
      | [] => [[c]]
      | grp :: rest => if c = sep then [] :: grp :: rest else (c :: grp) :: rest)
    [[]]

/-- Whether `needle` is an initial segment of `haystack`. -/
def headMatches : List Char → List Char → Bool
  | [], _ => true
  | _ :: _, [] => false
  | a :: as, b :: bs => a = b && headMatches as bs

/-- Whether `needle` occurs contiguously inside `haystack`. -/
def occursIn (needle : List Char) : List Char → Bool
  | [] => headMatches needle []
  | c :: rest => headMatches needle (c :: rest) || occursIn needle rest

/-- Python `needle in haystack` for strings (substring containment). -/
def pyContains (haystack needle : String) : Bool :=
  occursIn needle.toList haystack.toList

/-! ## `urllib.parse.urlparse`

The code derives domains and path keywords with `urlparse(url).netloc` and
`urlparse(url).path`.  The model follows CPython's `urlsplit`/`urlparse`:
leading C0-control-or-space characters are stripped and tab/CR/LF removed,
then scheme, `//netloc`, fragment, query and (for schemes using them)
params are split off in that order. -/

/-- Characters allowed in a URL scheme after the initial letter. -/
def isSchemeChar (c : Char) : Bool :=
  c.isAlphanum || c = '+' || c = '-' || c = '.'

/-- Split a leading `scheme:` when present (first char an ASCII letter and all
    scheme characters valid); the scheme is lowercased. -/
def splitScheme (cs : List Char) : List Char × List Char :=
  match splitFirst ':' cs with
  | (before, some rest) =>
    match before with
    | [] => ([], cs)
    | c0 :: _ =>
      if c0.isAlpha && before.all isSchemeChar then (before.map Char.toLower, rest)
      else ([], cs)
  | (_, none) => ([], cs)

/-- A character terminating the netloc component. -/
def netlocStop (c : Char) : Bool := c = '/' || c = '?' || c = '#'

/-- Split a leading `//netloc` when present. -/
def splitNetloc : List Char → List Char × List Char
  | '/' :: '/' :: rest =>
    (rest.takeWhile (fun c => !netlocStop c), rest.dropWhile (fun c => !netlocStop c))
  | cs => ([], cs)

/-- The schemes for which CPython's `urlparse` splits `;params` off the path. -/
def usesParams : List String :=
  ["", "ftp", "hdl", "prospero", "http", "imap", "https", "shttp", "rtsp",
   "rtspu", "sip", "sips", "mms", "sftp", "tel"]

/-- The final segment of `cs` after its last slash (all of `cs` when none). -/
def afterLastSlash (cs : List Char) : List Char :=
  (cs.reverse.takeWhile (fun c => c ≠ '/')).reverse

/-- Everything up to and including the last slash of `cs` (empty when none). -/
def uptoLastSlash (cs : List Char) : List Char :=
  (cs.reverse.dropWhile (fun c => c ≠ '/')).reverse

/-- CPython `_splitparams`: split `;params` off the last path segment. -/
def splitParams (cs : List Char) : List Char × List Char :=
  if cs.contains '/' then
    match splitFirst ';' (afterLastSlash cs) with
    | (before, some rest) => (uptoLastSlash cs ++ before, rest)
    | (_, none) => (cs, [])
  else
    match splitFirst ';' cs with
    | (before, some rest) => (before, rest)
    | (_, none) => (cs, [])

/-- The six components returned by `urlparse`. -/
structure UrlParts where
  scheme : String
  netloc : String
  path : String
  params : String
  query : String
  fragment : String
deriving DecidableEq, Repr

/-- C0 control characters and space, stripped from the front of a URL. -/
def isC0OrSpace (c : Char) : Bool := c.toNat ≤ 32

/-- Model of `urllib.parse.urlparse` for absolute URLs. -/
def urlparse (url : String) : UrlParts :=
  let cs := (url.toList.dropWhile isC0OrSpace).filter
    (fun c => !(c = '\t' || c = '\r' || c = '\n'))
  let s1 := splitScheme cs
  let s2 := splitNetloc s1.2
  let f := splitFirst '#' s2.2
  let q := splitFirst '?' f.1
  let pp :=
    if usesParams.contains (String.mk s1.1) && (q.1).contains ';' then splitParams q.1
    else (q.1, [])
  ⟨String.mk s1.1, String.mk s2.1, String.mk pp.1, String.mk pp.2,
   String.mk ((q.2).getD []), String.mk ((f.2).getD [])⟩

/-! ## Keyword extraction and aggregation

From `send_keywords_summary` in src/services/rss/commands.py (lines 344-369)
and the identical logic in src/apps/email_bot.py (lines 209-234). -/

/-- Keyword extraction for one URL path, from the loop body:
    `path_parts = parsed_url.path.rstrip("/").split("/")`, then the keyword is
    `path_parts[-1]` provided it is non-empty and `keyword.strip()` is truthy. -/
def extractKeyword (path : String) : Option String :=
  let path_parts := splitAll '/' (pyRstripSlashes path).toList
  match path_parts.getLast? with
  | none => none
  | some lastSeg =>
    if lastSeg ≠ [] then
      if pyStrip (String.mk lastSeg) ≠ "" then some (String.mk lastSeg) else none
    else none

/-- Follows the words of claim C4 / spec section 4.6 only (not the source):
    the keyword is the last non-empty path segment after stripping trailing
    slashes, with no further condition.  Used to compare the claim's keyword
    rule with the source's `extractKeyword`. -/
def specLastSegmentKeyword (path : String) : Option String :=
  let path_parts := splitAll '/' (pyRstripSlashes path).toList
  match path_parts.getLast? with
  | none => none
  | some lastSeg => if lastSeg ≠ [] then some (String.mk lastSeg) else none

/-- `domain_keywords[domain].append(keyword)` on an insertion-ordered dict
    (with `domain_keywords[domain] = []` first when the key is new). -/
def addKeyword (m : List (String × List String)) (domain keyword : String) :
    List (String × List String) :=
  match m with
  | [] => [(domain, [keyword])]
  | (d, ks) :: rest =>
    if d = domain then (d, ks ++ [keyword]) :: rest
    else (d, ks) :: addKeyword rest domain keyword

/-- One iteration of the `for url in all_new_urls` loop. -/
def collectStep (domain_keywords : List (String × List String)) (url : String) :
    List (String × List String) :=
  let parsed_url := urlparse url
  let domain := parsed_url.netloc
  match extractKeyword parsed_url.path with
  | some keyword => addKeyword domain_keywords domain keyword
  | none => domain_keywords

/-- The `domain_keywords` dict built by the extraction loop. -/
def collectDomainKeywords (all_new_urls : List String) : List (String × List String) :=
  all_new_urls.foldl collectStep []

/-- `domain_keywords[domain] = list(set(domain_keywords[domain]))` for every
    domain.  Python's set order is unspecified; the model deduplicates
    deterministically, and claims about keyword sets are settled up to
    membership. -/
def dedupeValues (m : List (String × List String)) : List (String × List String) :=
  m.map (fun p => (p.1, p.2.dedup))

/-- The deduplicated domain-to-keywords mapping computed by
    `send_keywords_summary` (both the Telegram and the Email version). -/
def domainKeywordsOf (all_new_urls : List String) : List (String × List String) :=
  dedupeValues (collectDomainKeywords all_new_urls)

/-- Dictionary lookup on the insertion-ordered association list. -/
def lookupD (m : List (String × List String)) (d : String) : Option (List String) :=
  match m with
  | [] => none
  | (k, v) :: rest => if k = d then some v else lookupD rest d

/-- The keywords contributed to domain `d` by `urls`, in discovery order. -/
def domKeys (urls : List String) (d : String) : List String :=
  urls.filterMap
    (fun u => if (urlparse u).netloc = d then extractKeyword (urlparse u).path else none)

/-- Combine an existing dict entry with keywords appended later. -/
def combineK : Option (List String) → List String → Option (List String)
  | some v, ks => some (v ++ ks)
  | none, [] => none
  | none, k :: ks => some (k :: ks)

example : urlparse "https://a.com/foo" =
    ⟨"https", "a.com", "/foo", "", "", ""⟩ := by decide
example : urlparse "https://a.com/x/y/?q=1#f" =
    ⟨"https", "a.com", "/x/y/", "", "q=1", "f"⟩ := by decide
example : extractKeyword "/foo" = some "foo" := by decide
example : extractKeyword "/a/b/" = some "b" := by decide
example : extractKeyword "/" = none := by decide
example : extractKeyword "" = none := by decide
example : extractKeyword "/ " = none := by decide
example : specLastSegmentKeyword "/ " = some " " := by decide
example : domainKeywordsOf ["https://a.com/foo", "https://a.com/bar", "https://b.com/foo"] =
    [("a.com", ["foo", "bar"]), ("b.com", ["foo"])] := by decide
example : pyContains "xx今天已经更新过此sitemapyy" "今天已经更新过此sitemap" = true := by decide

/-! ## Worlds, outbound sends and the transport oracle -/

/-- An outbound delivery: a Telegram document, a Telegram text message, or an
    email (sender, recipient, subject, body, attachment paths). -/
inductive SentEvent where
  | tgDocument (chat_id : String) (document : String) (caption : String)
  | tgMessage (chat_id : String) (text : String)
  | email (sender recipient subject body : String) (attachments : List String)
deriving DecidableEq, Repr

/-- Observable state: the existing archive files and the log of deliveries. -/
structure World where
  files : List String
  sent : List SentEvent
deriving DecidableEq, Repr

/-- Fault model for external channels: which outbound sends succeed.
    A `false` send raises in the Python code (Telegram) or makes
    `send_email` report failure (SMTP). -/
def Transport := SentEvent → Bool

/-- The transport on which every delivery succeeds. -/
def trueTransport : Transport := fun _ => true

/-- One outbound call: on success the event is recorded, on failure the
    exception carries the unchanged world to the nearest handler. -/
def attempt (tr : Transport) (ev : SentEvent) (w : World) : Except World World :=
  if tr ev then .ok { w with sent := w.sent ++ [ev] } else .error w

/-- A `try`/`except` that swallows the exception (all the notifier methods
    log-and-continue). -/
def caught : Except World World → World
  | .ok w => w
  | .error w => w

/-- `dated_file.unlink()`: the archive path is removed from the file system
    (the inner `except OSError` branch is not modelled; deletion succeeds). -/
def removeFile (f : String) (w : World) : World :=
  { w with files := w.files.filter (fun g => g ≠ f) }

/-! ## TelegramNotifier (src/services/rss/notifier.py, lines 28-136) -/

/-- Header used when new URLs were found (notifier.py lines 58-63 and 91-96). -/
def tgHeaderNew (domain url : String) (n : Nat) : String :=
  "✨ " ++ domain ++ " ✨\n------------------------------------\n发现新增内容！ (共 " ++
    toString n ++ " 条)\n来源: " ++ url ++ "\n"

/-- Header used when no new URLs were found (notifier.py lines 65-71). -/
def tgHeaderNoUpdate (domain url : String) : String :=
  "✅ " ++ domain ++ "\n------------------------------------\n" ++ domain ++
    " 今日sitemap无更新\n来源: " ++ url ++ "\n------------------------------------"

/-- The caption attached to the dated file, depending on `new_urls`. -/
def tgFileCaption (domain url : String) (new_urls : List String) : String :=
  if new_urls ≠ [] then tgHeaderNew domain url new_urls.length
  else tgHeaderNoUpdate domain url

/-- The closing message after pushing all new URLs (notifier.py lines 114-116). -/
def tgEndMessage (domain : String) : String :=
  "✨ " ++ domain ++ " 更新推送完成 ✨\n------------------------------------"

/-- The `else` branch when no dated file is available (notifier.py lines 83-99):
    a text-only notification. -/
def tgNoFileSend (tr : Transport) (chat_id domain url : String)
    (new_urls : List String) (w : World) : Except World World :=
  if new_urls = [] then
    attempt tr (.tgMessage chat_id ("✅ " ++ domain ++ " 今日没有更新")) w
  else
    attempt tr (.tgMessage chat_id (tgHeaderNew domain url new_urls.length)) w

/-- The `for u in new_urls` loop (notifier.py lines 104-109): each URL is sent
    as its own message; a raise aborts the rest of the `try` body. -/
def tgSendUrlLoop (tr : Transport) (chat_id : String) :
    List String → World → Except World World
  | [], w => .ok w
  | u :: rest, w =>
    match attempt tr (.tgMessage chat_id u) w with
    | .ok w' => tgSendUrlLoop tr chat_id rest w'
    | .error w' => .error w'

/-- The tail of the `try` body (notifier.py lines 101-120): when `new_urls` is
    non-empty, send every URL and then the end message. -/
def tgPhase2 (tr : Transport) (chat_id domain : String) (new_urls : List String)
    (w : World) : Except World World :=
  if new_urls = [] then .ok w
  else
    match tgSendUrlLoop tr chat_id new_urls w with
    | .ok w2 => attempt tr (.tgMessage chat_id (tgEndMessage domain)) w2
    | .error w2 => .error w2

/-- `TelegramNotifier.send_update_notification` (notifier.py lines 36-122).
    `target = ""` stands for `None`; the whole body after the chat-id guard is
    one `try` whose `except` logs and returns. -/
def TelegramNotifier.send_update_notification (tr : Transport)
    (cfg_target_chat url : String) (new_urls : List String)
    (dated_file : Option String) (target : String) (w : World) : World :=
  let chat_id := pyOr target cfg_target_chat
  if chat_id = "" then w
  else
    let domain := (urlparse url).netloc
    let step1 : Except World World :=
      match dated_file with
      | some f =>
        if f ∈ w.files then
          match attempt tr (.tgDocument chat_id f (tgFileCaption domain url new_urls)) w with
          | .ok w1 => .ok (removeFile f w1)
          | .error w1 => .error w1
        else tgNoFileSend tr chat_id domain url new_urls w
      | none => tgNoFileSend tr chat_id domain url new_urls w
    match step1 with
    | .error wE => wE
    | .ok w1 => caught (tgPhase2 tr chat_id domain new_urls w1)

/-- `TelegramNotifier.send_message` (notifier.py lines 124-136). -/
def TelegramNotifier.send_message (tr : Transport)
    (cfg_target_chat message target : String) (w : World) : World :=
  let chat_id := pyOr target cfg_target_chat
  if chat_id = "" then w
  else caught (attempt tr (.tgMessage chat_id message) w)

/-! ## Email bot (src/apps/email_bot.py) -/

/-- The environment-derived email configuration (src/core/config.py). -/
structure EmailConfig where
  toEmail : String
  fromEmail : String
  username : String
deriving DecidableEq, Repr

/-- `send_email` (email_bot.py lines 40-76).  `smtpOk` models whether
    `create_email_client()` succeeds; the recipient is always
    `email_config["to_email"]` and attachments are filtered to existing
    files.  Returns the updated world and the function's boolean result. -/
def EmailBot.send_email (tr : Transport) (smtpOk : Bool) (cfg : EmailConfig)
    (subject body : String) (attachments : List String) (w : World) :
    World × Bool :=
  if cfg.toEmail = "" then (w, false)
  else if !smtpOk then (w, false)
  else
    let sender := pyOr cfg.fromEmail cfg.username
    let atts := attachments.filter (fun a => decide (a ∈ w.files))
    let ev := SentEvent.email sender cfg.toEmail subject body atts
    if tr ev then ({ w with sent := w.sent ++ [ev] }, true) else (w, false)

/-- The HTML body built by `send_update_notification` (email_bot.py lines
    145-169); whitespace of the Python triple-quoted literals is condensed. -/
def EmailBot.updateHtml (domain url : String) (new_urls : List String) : String :=
  "<html><body><h2>✨ " ++ domain ++ " ✨</h2><hr><p><strong>来源:</strong> " ++ url ++
    "</p>" ++
    (if new_urls ≠ [] then
      "<p><strong>发现新增内容！</strong> (共 " ++ toString new_urls.length ++ " 条)</p><ul>" ++
        String.join (new_urls.map (fun u =>
          "<li><a href=" ++ u ++ ">" ++ u ++ "</a></li>")) ++ "</ul>"
    else "<p><strong>今日sitemap无更新</strong></p>") ++
    "<hr><p><em>自动发送 by Email Bot</em></p></body></html>"

/-- `send_update_notification` (email_bot.py lines 129-193): build the HTML,
    attach the dated file when it exists, send, and delete the file only when
    `send_email` reported success. -/
def EmailBot.send_update_notification (tr : Transport) (smtpOk : Bool)
    (cfg : EmailConfig) (url : String) (new_urls : List String)
    (dated_file : Option String) (target_email : String) (w : World) : World :=
  let email_to := pyOr target_email cfg.toEmail
  if email_to = "" then w
  else
    let domain := (urlparse url).netloc
    let html := EmailBot.updateHtml domain url new_urls
    let attachments :=
      match dated_file with
      | some f => if f ∈ w.files then [f] else []
      | none => []
    let subject := "✨ " ++ domain ++ " Sitemap更新通知"
    let r := EmailBot.send_email tr smtpOk cfg subject html attachments w
    if r.2 then
      match dated_file with
      | some f => if f ∈ r.1.files then removeFile f r.1 else r.1
      | none => r.1
    else r.1

/-! ## EmailNotifier (src/services/rss/notifier.py, lines 139-183) -/

/-- The HTML wrapper of `EmailNotifier.send_message` (notifier.py lines 173-181). -/
def emailHtmlWrap (message : String) : String :=
  "<html><body><pre>" ++ message ++
    "</pre><hr><p><em>自动发送 by Email Bot</em></p></body></html>"

/-- `EmailNotifier.send_update_notification` (notifier.py lines 146-161):
    resolve the destination, then delegate to the email bot. -/
def EmailNotifier.send_update_notification (tr : Transport) (smtpOk : Bool)
    (cfg : EmailConfig) (url : String) (new_urls : List String)
    (dated_file : Option String) (target : String) (w : World) : World :=
  let email_to := pyOr target cfg.toEmail
  if email_to = "" then w
  else EmailBot.send_update_notification tr smtpOk cfg url new_urls dated_file email_to w

/-- `EmailNotifier.send_message` (notifier.py lines 163-183): the resolved
    `email_to` is used only for the guard; the mail is sent by
    `send_email("RSS通知", html_message)` with no recipient argument. -/
def EmailNotifier.send_message (tr : Transport) (smtpOk : Bool)
    (cfg : EmailConfig) (message target : String) (w : World) : World :=
  let email_to := pyOr target cfg.toEmail
  if email_to = "" then w
  else (EmailBot.send_email tr smtpOk cfg "RSS通知" (emailHtmlWrap message) [] w).1

/-! ## Notification fan-out (src/services/rss/notifier.py, lines 186-218) -/

/-- The two operations of the `NotificationService` interface, with the
    arguments `send_to_all` forwards unchanged to every channel. -/
inductive Call where
  | update (url : String) (new_urls : List String) (dated_file : Option String)
      (target : String)
  | message (text : String) (target : String)
deriving DecidableEq, Repr

/-- A registered channel.  `NotificationService` is an abstract base class
    whose two methods are abstract, so every registered notifier implements
    both and `hasattr(notifier, method)` is true for them; `invoke` returns
    the new world and whether the method raised. -/
structure Channel where
  invoke : Call → World → World × Bool

/-- The result of one broadcast: final world, the `(name, args)` invocations
    made in registry order, and the channels whose failure was caught and
    logged. -/
structure BroadcastOut where
  world : World
  calls : List (String × Call)
  logged : List String
deriving Repr

/-- `NotificationManager.send_to_all` (notifier.py lines 201-214): for each
    registered channel in order, invoke the method inside `try`/`except`;
    a raise is logged and the loop continues. -/
def NotificationManager.send_to_all :
    List (String × Channel) → Call → World → BroadcastOut
  | [], _, w => ⟨w, [], []⟩
  | (name, ch) :: rest, c, w =>
    let r := ch.invoke c w
    let out := NotificationManager.send_to_all rest c r.1
    ⟨out.world, (name, c) :: out.calls,
      (if r.2 then [name] else []) ++ out.logged⟩

/-- The Telegram channel as registered by `init_notifiers`; both methods
    catch all exceptions internally, so `invoke` never raises. -/
def telegramChannel (tr : Transport) (cfg_target_chat : String) : Channel :=
  ⟨fun c w =>
    match c with
    | .update url new_urls dated_file target =>
      (TelegramNotifier.send_update_notification tr cfg_target_chat url new_urls
        dated_file target w, false)
    | .message text target =>
      (TelegramNotifier.send_message tr cfg_target_chat text target w, false)⟩

/-- The Email channel as registered by `init_notifiers`; `send_email` reports
    failure through its boolean result, so `invoke` never raises. -/
def emailChannel (tr : Transport) (smtpOk : Bool) (cfg : EmailConfig) : Channel :=
  ⟨fun c w =>
    match c with
    | .update url new_urls dated_file target =>
      (EmailNotifier.send_update_notification tr smtpOk cfg url new_urls
        dated_file target w, false)
    | .message text target =>
      (EmailNotifier.send_message tr smtpOk cfg text target w, false)⟩

/-- `init_notifiers(bot)` (src/services/rss/commands.py lines 15-24) with a
    bot available: the Telegram channel is registered first, then the Email
    channel; Python dicts iterate in insertion order. -/
def init_notifiers (tr : Transport) (smtpOk : Bool) (cfg_target_chat : String)
    (ecfg : EmailConfig) : List (String × Channel) :=
  [("telegram", telegramChannel tr cfg_target_chat),
   ("email", emailChannel tr smtpOk ecfg)]

/-! ## Keyword summary senders -/

/-- The fixed header of the Telegram summary (commands.py lines 374-376). -/
def summaryHeader : String :=
  "━━━━━━━━━━━━━━━━━━\n🎯 #今日新增 #关键词 #速览 🎯\n━━━━━━━━━━━━━━━━━━\n\n"

/-- One per-domain block of the Telegram summary (commands.py lines 379-384). -/
def summaryBlock (domain : String) (keywords : List String) : String :=
  if keywords ≠ [] then
    "📌 " ++ domain ++ ":\n" ++
      String.join (keywords.enum.map
        (fun p => "  " ++ toString (p.1 + 1) ++ ". " ++ p.2 ++ "\n")) ++ "\n"
  else ""

/-- The full Telegram summary text. -/
def summaryMessage (domain_keywords : List (String × List String)) : String :=
  summaryHeader ++ String.join (domain_keywords.map (fun p => summaryBlock p.1 p.2))

/-- `send_keywords_summary` (src/services/rss/commands.py lines 323-393):
    guard on the chat id, return on an empty URL list, aggregate, and send one
    summary message only when the mapping is non-empty. -/
def Commands.send_keywords_summary (tr : Transport) (cfg_target_chat : String)
    (all_new_urls : List String) (target_chat : String) (w : World) : World :=
  let chat_id := pyOr target_chat cfg_target_chat
  if chat_id = "" then w
  else if all_new_urls = [] then w
  else
    let domain_keywords := domainKeywordsOf all_new_urls
    if domain_keywords ≠ [] then
      caught (attempt tr (.tgMessage chat_id (summaryMessage domain_keywords)) w)
    else w

/-- One per-domain block of the email summary (email_bot.py lines 247-252). -/
def EmailBot.summaryBlockHtml (domain : String) (keywords : List String) : String :=
  if keywords ≠ [] then
    "<h3>📌 " ++ domain ++ ":</h3><ul>" ++
      String.join (keywords.map (fun k => "<li>" ++ k ++ "</li>")) ++ "</ul><br>"
  else ""

/-- The full email summary body (email_bot.py lines 238-259). -/
def EmailBot.summaryHtml (domain_keywords : List (String × List String)) : String :=
  "<html><body><h2>🎯 #今日新增 #关键词 #速览 🎯</h2><hr>" ++
    String.join (domain_keywords.map (fun p => EmailBot.summaryBlockHtml p.1 p.2)) ++
    "<hr><p><em>自动发送 by Email Bot</em></p></body></html>"

/-- `send_keywords_summary` (src/apps/email_bot.py lines 196-268): same
    aggregation, sent as one email only when the mapping is non-empty. -/
def EmailBot.send_keywords_summary (tr : Transport) (smtpOk : Bool)
    (cfg : EmailConfig) (all_new_urls : List String) (target_email : String)
    (w : World) : World :=
  let email_to := pyOr target_email cfg.toEmail
  if email_to = "" then w
  else if all_new_urls = [] then w
  else
    let domain_keywords := domainKeywordsOf all_new_urls
    if domain_keywords ≠ [] then
      (EmailBot.send_email tr smtpOk cfg "🎯 今日新增关键词汇总"
        (EmailBot.summaryHtml domain_keywords) [] w).1
    else w

/-! ## Snapshot store and diff engine

`RSSManager` (services/rss/manager.py) is not among the provided source
files; only its callers are.  The snapshot store and the diff engine are
therefore modelled from the specification (sections 4.3 and 4.4). -/

/-- Modelled from the spec: the per-domain state of the Snapshot Store
    (`RSSManager`, services/rss/manager.py, missing from src/): last-update
    calendar day, current snapshot, previous snapshot, dated archives. -/
structure DomainState where
  lastUpdate : Option Nat
  current : Option String
  previousSnap : Option String
  archives : List (Nat × String)
deriving DecidableEq, Repr

/-- Modelled from the spec: `has_updated_today(domain)` is true iff a
    successful update already rotated snapshots for the current calendar day. -/
def has_updated_today (s : DomainState) (today : Nat) : Bool :=
  s.lastUpdate = some today

/-- The outcome of a commit: a dated archive handle, or the distinct
    already-updated-today signal. -/
inductive CommitResult where
  | ok (archiveDate : Nat)
  | alreadyUpdatedToday
deriving DecidableEq, Repr

/-- Modelled from the spec: `commit(domain, new_content)` fails with
    `AlreadyUpdatedToday` (leaving the state untouched) when an update already
    happened today; otherwise it rotates current to previous, stores the new
    content as current, writes today's dated archive and records today. -/
def commit (s : DomainState) (today : Nat) (new_content : String) :
    DomainState × CommitResult :=
  if s.lastUpdate = some today then (s, .alreadyUpdatedToday)
  else
    ({ lastUpdate := some today, current := some new_content,
       previousSnap := s.current, archives := (today, new_content) :: s.archives },
     .ok today)

/-- The marker substring matched by both callers in src/
    (src/apps/email_bot.py line 304, src/services/rss/commands.py line 176). -/
def alreadyUpdatedMarker : String := "今天已经更新过此sitemap"

/-- Modelled from the spec: how `add_feed` surfaces a commit outcome through
    its `(success, error_msg)` message channel; the already-updated case
    carries the recognizable marker the src/ callers match on. -/
def commitMsg : CommitResult → Bool × String
  | .ok _ => (true, "")
  | .alreadyUpdatedToday => (false, alreadyUpdatedMarker)

/-- How `scheduled_task` branches on a feed result (email_bot.py lines
    290-307): notified on success with an existing dated file, an
    informational log when the marker matches, a warning otherwise. -/
inductive FeedCheckOutcome where
  | notifiedUpdate
  | infoAlreadyUpdated
  | warnFailed
deriving DecidableEq, Repr

/-- The branch structure of `scheduled_task`'s per-feed handling
    (src/apps/email_bot.py lines 290-307). -/
def EmailBot.scheduledFeedOutcome (success : Bool) (error_msg : String)
    (dated_file_exists : Bool) : FeedCheckOutcome :=
  if success && dated_file_exists then .notifiedUpdate
  else if pyContains error_msg alreadyUpdatedMarker then .infoAlreadyUpdated
  else .warnFailed

/-- The three paths of the `/rss add` handler after `add_feed` returns
    (src/services/rss/commands.py lines 165-208). -/
inductive RssAddPath where
  | successPath
  | alreadyUpdatedPath
  | failurePath
deriving DecidableEq, Repr

/-- The branch structure of `rss_command`'s add handling (commands.py lines
    165-208): the already-updated marker selects the informational path that
    re-serves today's file rather than reporting an error. -/
def Commands.rssAddBranch (success : Bool) (error_msg : String) : RssAddPath :=
  if success then .successPath
  else if pyContains error_msg alreadyUpdatedMarker then .alreadyUpdatedPath
  else .failurePath

/-- Modelled from the spec: the Diff Engine contract (spec section 4.4;
    `RSSManager.compare_sitemaps`, services/rss/manager.py, missing from
    src/): `diff(old, new)` keeps, in source order, the URLs of the new
    document that are absent from the old set. -/
def diff (old newDoc : List String) : List String :=
  newDoc.filter (fun u => decide (u ∉ old))

/-! ## The scheduler pass (src/apps/email_bot.py, `scheduled_task`) -/

/-- The `(success, error_msg, dated_file, new_urls)` quadruple returned by
    `rss_manager.add_feed(url)`; the scheduler consumes it abstractly. -/
structure AddFeedRes where
  success : Bool
  errorMsg : String
  datedFile : Option String
  newUrls : List String
deriving DecidableEq, Repr

/-- The observable events of one scheduler pass, in program order. -/
inductive PassEvent where
  | notifyBroadcast (url : String) (new_urls : List String) (dated_file : String)
  | sleepEv (seconds : Nat)
  | summaryCall (all_new_urls : List String)
deriving DecidableEq, Repr

/-- One iteration of the `for url in feeds` loop of `scheduled_task`
    (email_bot.py lines 285-309), accumulating the emitted events and
    `all_new_urls`.  A successful result with no dated file makes
    `dated_file.exists()` raise (`None` has no `exists`), aborting the pass
    into the outer `except`. -/
def passStep (addFeed : String → AddFeedRes) (fileExists : String → Bool)
    (acc : List PassEvent × List String) (url : String) :
    Except (List PassEvent × List String) (List PassEvent × List String) :=
  let r := addFeed url
  if r.success then
    match r.datedFile with
    | none => .error acc
    | some f =>
      if fileExists f then
        .ok (acc.1 ++ [.notifyBroadcast url r.newUrls f], acc.2 ++ r.newUrls)
      else .ok (acc.1, acc.2 ++ r.newUrls)
  else .ok (acc.1, acc.2 ++ r.newUrls)

/-- The per-feed loop of `scheduled_task`, feed by feed. -/
def runPass (addFeed : String → AddFeedRes) (fileExists : String → Bool) :
    List String → (List PassEvent × List String) →
    Except (List PassEvent × List String) (List PassEvent × List String)
  | [], acc => .ok acc
  | url :: rest, acc =>
    match passStep addFeed fileExists acc url with
    | .ok acc' => runPass addFeed fileExists rest acc'
    | .error e => .error e

/-- The event trace of one iteration of `scheduled_task`'s `while True` body
    (email_bot.py lines 278-319): check every feed, sleep 10 seconds, call
    `send_keywords_summary(all_new_urls)`, sleep an hour; an unhandled
    exception instead logs and sleeps 60 seconds. -/
def scheduledPassTrace (feeds : List String) (addFeed : String → AddFeedRes)
    (fileExists : String → Bool) : List PassEvent :=
  match runPass addFeed fileExists feeds ([], []) with
  | .ok acc =>
    acc.1 ++ [.sleepEv 10, .summaryCall acc.2, .sleepEv 3600]
  | .error acc => acc.1 ++ [.sleepEv 60]

/-- The notification events one feed contributes to a (non-aborted) pass. -/
def perFeedEvents (addFeed : String → AddFeedRes) (fileExists : String → Bool)
    (url : String) : List PassEvent :=
  let r := addFeed url
  match r.datedFile with
  | some f =>
    if r.success && fileExists f then [.notifyBroadcast url r.newUrls f] else []
  | none => []

/-- A channel whose methods never raise (for concrete broadcasts). -/
def okChannel : Channel := ⟨fun _ w => (w, false)⟩

/-- A channel whose methods always raise (for concrete broadcasts). -/
def failingChannel : Channel := ⟨fun _ w => (w, true)⟩

/-! # Theorems -/

/-! ## Fan-out lemmas -/

/-- Every registered channel appears in the invocation list, in registry
    order, with the broadcast arguments, whatever each `invoke` returns. -/
lemma send_to_all_calls (chans : List (String × Channel)) (c : Call) (w : World) :
    (NotificationManager.send_to_all chans c w).calls =
      chans.map (fun nc => (nc.1, c)) := by
  induction chans generalizing w with
  | nil => rfl
  | cons p rest ih =>
    obtain ⟨name, ch⟩ := p
    simp [NotificationManager.send_to_all, ih]

/-- A channel whose invocation raises is recorded in the caught-and-logged
    list, wherever it sits in the registry. -/
lemma send_to_all_logged_mem (post : List (String × Channel))
    (x : String × Channel) (c : Call) :
    ∀ (pre : List (String × Channel)) (w : World),
      (x.2.invoke c (NotificationManager.send_to_all pre c w).world).2 = true →
      x.1 ∈ (NotificationManager.send_to_all (pre ++ x :: post) c w).logged := by
  intro pre
  induction pre with
  | nil =>
    intro w hx
    obtain ⟨name, ch⟩ := x
    simp only [NotificationManager.send_to_all] at hx
    simp only [List.nil_append, NotificationManager.send_to_all]
    simp [hx]
  | cons p rest ih =>
    intro w hx
    obtain ⟨pname, pch⟩ := p
    simp only [NotificationManager.send_to_all] at hx
    simp only [List.cons_append, NotificationManager.send_to_all]
    exact List.mem_append_right _ (ih _ hx)

/-- Claim C1: fan-out isolation.  If one registered channel's operation
    raises during a broadcast, the raise is caught and logged, and every
    registered channel (before and after it) is still invoked with the
    identical broadcast arguments. -/
theorem fanout_isolation :
    ∀ (pre post : List (String × Channel)) (x : String × Channel) (c : Call)
      (w : World),
      (x.2.invoke c (NotificationManager.send_to_all pre c w).world).2 = true →
      x.1 ∈ (NotificationManager.send_to_all (pre ++ x :: post) c w).logged ∧
      (NotificationManager.send_to_all (pre ++ x :: post) c w).calls =
        (pre ++ x :: post).map (fun nc => (nc.1, c)) :=
  fun pre post x c w hx =>
    ⟨send_to_all_logged_mem post x c pre w hx, send_to_all_calls _ _ _⟩

/-- Witness for C1 at a concrete registry: the middle channel raises, it is
    logged, and all three channels are invoked with the same arguments. -/
theorem fanout_isolation_witness :
    "b" ∈ (NotificationManager.send_to_all
        [("a", okChannel), ("b", failingChannel), ("c", okChannel)]
        (Call.message "hi" "") ⟨[], []⟩).logged ∧
    (NotificationManager.send_to_all
        [("a", okChannel), ("b", failingChannel), ("c", okChannel)]
        (Call.message "hi" "") ⟨[], []⟩).calls =
      [("a", Call.message "hi" ""), ("b", Call.message "hi" ""),
       ("c", Call.message "hi" "")] := by
  have h := fanout_isolation [("a", okChannel)] [("c", okChannel)]
    ("b", failingChannel) (Call.message "hi" "") ⟨[], []⟩ rfl
  simpa using h

/-- Claim C7: broadcast coverage.  A broadcast invokes the named operation on
    every registered channel — none is skipped — in registry order and with
    the same arguments. -/
theorem broadcast_coverage :
    ∀ (chans : List (String × Channel)) (c : Call) (w : World),
      (NotificationManager.send_to_all chans c w).calls =
        chans.map (fun nc => (nc.1, c)) :=
  fun chans c w => send_to_all_calls chans c w

/-- Witness for C7 at a concrete two-channel registry. -/
theorem broadcast_coverage_witness :
    (NotificationManager.send_to_all [("a", okChannel), ("b", okChannel)]
        (Call.message "m" "") ⟨[], []⟩).calls =
      [("a", Call.message "m" ""), ("b", Call.message "m" "")] := by
  have h := broadcast_coverage [("a", okChannel), ("b", okChannel)]
    (Call.message "m" "") ⟨[], []⟩
  simpa using h

/-! ## Diff engine (spec-modelled) -/

/-- Claim C2: the diff engine returns exactly the URLs present in the new
    document and absent from the old set, in the new document's order (a
    sublist, no sorting), and `diff ∅ N = N`. -/
theorem diff_engine_contract :
    (∀ (old newDoc : List String) (u : String),
       u ∈ diff old newDoc ↔ (u ∈ newDoc ∧ u ∉ old)) ∧
    (∀ (old newDoc : List String), (diff old newDoc).Sublist newDoc) ∧
    (∀ (N : List String), diff [] N = N) := by
  refine ⟨?_, ?_, ?_⟩
  · intro old newDoc u
    simp [diff, List.mem_filter]
  · intro old newDoc
    exact List.filter_sublist _
  · intro N
    simp [diff]

/-- Witness for C2 on concrete sets: first observation reports everything. -/
theorem diff_engine_contract_witness :
    diff [] ["https://a.com/x", "https://a.com/y"] =
      ["https://a.com/x", "https://a.com/y"] :=
  diff_engine_contract.2.2 ["https://a.com/x", "https://a.com/y"]

/-! ## Snapshot-store commit (spec-modelled) -/

/-- Claim C3: committing twice for the same domain on the same calendar day
    yields the already-updated outcome on the second call, leaves the stored
    snapshots exactly as the first commit produced them, and is surfaced
    through the `(success, error_msg)` message channel with the marker both
    src/ callers match on and branch into their non-error paths. -/
theorem commit_at_most_once_per_day :
    ∀ (s : DomainState) (today : Nat) (c1 c2 : String),
      has_updated_today s today = false →
      (commit s today c1).2 = CommitResult.ok today ∧
      commit (commit s today c1).1 today c2 =
        ((commit s today c1).1, CommitResult.alreadyUpdatedToday) ∧
      (commit s today c1).1.current = some c1 ∧
      (commit s today c1).1.previousSnap = s.current ∧
      (commitMsg CommitResult.alreadyUpdatedToday).1 = false ∧
      pyContains (commitMsg CommitResult.alreadyUpdatedToday).2
        alreadyUpdatedMarker = true ∧
      EmailBot.scheduledFeedOutcome false
        (commitMsg CommitResult.alreadyUpdatedToday).2 false =
        FeedCheckOutcome.infoAlreadyUpdated ∧
      Commands.rssAddBranch false (commitMsg CommitResult.alreadyUpdatedToday).2 =
        RssAddPath.alreadyUpdatedPath := by
  intro s today c1 c2 h
  have hne : ¬ s.lastUpdate = some today := by
    simpa [has_updated_today] using h
  refine ⟨?_, ?_, ?_, ?_, by decide, by decide, by decide, by decide⟩
  · simp [commit, hne]
  · simp [commit, hne]
  · simp [commit, hne]
  · simp [commit, hne]

/-- Witness for C3 on a fresh domain state. -/
theorem commit_at_most_once_per_day_witness :
    commit (commit ⟨none, none, none, []⟩ 7 "contentA").1 7 "contentB" =
      ((commit ⟨none, none, none, []⟩ 7 "contentA").1,
        CommitResult.alreadyUpdatedToday) :=
  (commit_at_most_once_per_day ⟨none, none, none, []⟩ 7 "contentA" "contentB"
    (by decide)).2.1

/-! ## Scheduler pass ordering -/

/-- When every successful feed check yields a dated file, the pass never hits
    the `None.exists()` failure and its loop produces exactly the per-feed
    notification events plus the accumulated new-URL list. -/
lemma runPass_ok (addFeed : String → AddFeedRes) (fileExists : String → Bool) :
    ∀ (feeds : List String) (acc : List PassEvent × List String),
      (∀ url ∈ feeds, (addFeed url).success = true →
        (addFeed url).datedFile.isSome = true) →
      runPass addFeed fileExists feeds acc =
        .ok (acc.1 ++ feeds.flatMap (perFeedEvents addFeed fileExists),
             acc.2 ++ feeds.flatMap (fun url => (addFeed url).newUrls)) := by
  intro feeds
  induction feeds with
  | nil => intro acc h; simp [runPass]
  | cons url rest ih =>
    intro acc h
    have hrest : ∀ u ∈ rest, (addFeed u).success = true →
        (addFeed u).datedFile.isSome = true :=
      fun u hu => h u (List.mem_cons_of_mem _ hu)
    have hih : ∀ acc', runPass addFeed fileExists rest acc' =
        .ok (acc'.1 ++ rest.flatMap (perFeedEvents addFeed fileExists),
             acc'.2 ++ rest.flatMap (fun url => (addFeed url).newUrls)) :=
      fun acc' => ih acc' hrest
    rcases hs : (addFeed url).success with _ | _
    · rcases hd : (addFeed url).datedFile with _ | f
      · have hstep : passStep addFeed fileExists acc url =
            .ok (acc.1, acc.2 ++ (addFeed url).newUrls) := by
          simp [passStep, hs]
        simp [runPass, hstep, hih, perFeedEvents, hs, hd]
      · have hstep : passStep addFeed fileExists acc url =
            .ok (acc.1, acc.2 ++ (addFeed url).newUrls) := by
          simp [passStep, hs]
        simp [runPass, hstep, hih, perFeedEvents, hs, hd]
    · have hds := h url (List.mem_cons_self _ _) hs
      rcases hd : (addFeed url).datedFile with _ | f
      · rw [hd] at hds; cases hds
      · rcases hf : fileExists f with _ | _
        · have hstep : passStep addFeed fileExists acc url =
              .ok (acc.1, acc.2 ++ (addFeed url).newUrls) := by
            simp [passStep, hs, hd, hf]
          simp [runPass, hstep, hih, perFeedEvents, hs, hd, hf]
        · have hstep : passStep addFeed fileExists acc url =
              .ok (acc.1 ++ [.notifyBroadcast url (addFeed url).newUrls f],
                   acc.2 ++ (addFeed url).newUrls) := by
            simp [passStep, hs, hd, hf]
          simp [runPass, hstep, hih, perFeedEvents, hs, hd, hf]

/-- Claim C5: in a scheduler pass, all per-feed notification broadcasts come
    first, then the fixed 10-second delay, then the single summary call whose
    argument is exactly the concatenation of the new-URL batches of all the
    pass's feeds (then the hourly sleep). -/
theorem scheduler_pass_ordering :
    ∀ (feeds : List String) (addFeed : String → AddFeedRes)
      (fileExists : String → Bool),
      (∀ url ∈ feeds, (addFeed url).success = true →
        (addFeed url).datedFile.isSome = true) →
      scheduledPassTrace feeds addFeed fileExists =
        feeds.flatMap (perFeedEvents addFeed fileExists) ++
          [PassEvent.sleepEv 10,
           PassEvent.summaryCall
             (feeds.flatMap (fun url => (addFeed url).newUrls)),
           PassEvent.sleepEv 3600] ∧
      (∀ e ∈ feeds.flatMap (perFeedEvents addFeed fileExists),
         ∃ u nus fl, e = PassEvent.notifyBroadcast u nus fl) := by
  intro feeds addFeed fileExists h
  constructor
  · rw [scheduledPassTrace, runPass_ok addFeed fileExists feeds ([], []) h]
    simp
  · intro e he
    rw [List.mem_flatMap] at he
    obtain ⟨u, hu, he⟩ := he
    rcases hd : (addFeed u).datedFile with _ | f
    · simp [perFeedEvents, hd] at he
    · rcases hc : (addFeed u).success && fileExists f with _ | _
      · simp [perFeedEvents, hd, hc] at he
      · simp [perFeedEvents, hd, hc] at he
        exact ⟨u, (addFeed u).newUrls, f, he⟩

/-- Witness for C5 on a one-feed pass. -/
theorem scheduler_pass_ordering_witness :
    scheduledPassTrace ["https://a.com/sitemap.xml"]
        (fun _ => ⟨true, "", some "sitemap-2025-10-12.xml", ["https://a.com/k"]⟩)
        (fun _ => true) =
      [PassEvent.notifyBroadcast "https://a.com/sitemap.xml" ["https://a.com/k"]
         "sitemap-2025-10-12.xml",
       PassEvent.sleepEv 10,
       PassEvent.summaryCall ["https://a.com/k"],
       PassEvent.sleepEv 3600] := by
  have h := (scheduler_pass_ordering ["https://a.com/sitemap.xml"]
    (fun _ => ⟨true, "", some "sitemap-2025-10-12.xml", ["https://a.com/k"]⟩)
    (fun _ => true) (by intro url hu hs; rfl)).1
  simpa [perFeedEvents] using h

/-! ## Empty-summary rule -/

/-- URLs yielding no keyword leave the aggregation dict untouched. -/
lemma collect_no_keyword :
    ∀ (urls : List String) (m : List (String × List String)),
      (∀ u ∈ urls, extractKeyword (urlparse u).path = none) →
      urls.foldl collectStep m = m := by
  intro urls
  induction urls with
  | nil => intro m _; rfl
  | cons u rest ih =>
    intro m h
    rw [List.foldl_cons]
    have hstep : collectStep m u = m := by
      simp [collectStep, h u (List.mem_cons_self _ _)]
    rw [hstep]
    exact ih m (fun v hv => h v (List.mem_cons_of_mem _ hv))

/-- Claim C8: an empty URL list, or one in which no URL yields a usable
    keyword, produces an empty domain-keyword mapping, and neither summary
    sender (Telegram or email) sends anything. -/
theorem empty_summary_rule :
    ∀ (urls : List String),
      (urls = [] ∨ ∀ u ∈ urls, extractKeyword (urlparse u).path = none) →
      domainKeywordsOf urls = [] ∧
      (∀ (tr : Transport) (cfg_target_chat target_chat : String) (w : World),
         Commands.send_keywords_summary tr cfg_target_chat urls target_chat w = w) ∧
      (∀ (tr : Transport) (smtpOk : Bool) (cfg : EmailConfig)
         (target_email : String) (w : World),
         EmailBot.send_keywords_summary tr smtpOk cfg urls target_email w = w) := by
  intro urls h
  have hd : domainKeywordsOf urls = [] := by
    rcases h with h | h
    · subst h; rfl
    · rw [domainKeywordsOf, collectDomainKeywords, collect_no_keyword urls [] h]
      rfl
  refine ⟨hd, ?_, ?_⟩
  · intro tr cfgc tc w
    rw [Commands.send_keywords_summary]
    split
    · rfl
    · split
      · rfl
      · simp [hd]
  · intro tr smtpOk cfg te w
    rw [EmailBot.send_keywords_summary]
    split
    · rfl
    · split
      · rfl
      · simp [hd]

/-- Witness for C8: a URL whose path has no usable final segment yields an
    empty mapping. -/
theorem empty_summary_rule_witness :
    domainKeywordsOf ["https://a.com/"] = [] :=
  (empty_summary_rule ["https://a.com/"] (Or.inr (by decide))).1

/-! ## Keyword aggregation -/

/-- Appending a keyword to a domain's entry, seen through lookup at that
    domain. -/
lemma lookupD_addKeyword_self :
    ∀ (m : List (String × List String)) (d k : String),
      lookupD (addKeyword m d k) d = some ((lookupD m d).getD [] ++ [k]) := by
  intro m
  induction m with
  | nil => intro d k; simp [addKeyword, lookupD]
  | cons p rest ih =>
    intro d k
    obtain ⟨d0, ks⟩ := p
    by_cases hdd : d0 = d
    · subst hdd; simp [addKeyword, lookupD]
    · simp [addKeyword, lookupD, hdd, ih]

/-- Appending a keyword to one domain leaves lookups at other domains alone. -/
lemma lookupD_addKeyword_other :
    ∀ (m : List (String × List String)) (d k d' : String), d' ≠ d →
      lookupD (addKeyword m d k) d' = lookupD m d' := by
  intro m
  induction m with
  | nil =>
    intro d k d' hne
    simp [addKeyword, lookupD, Ne.symm hne]
  | cons p rest ih =>
    intro d k d' hne
    obtain ⟨d0, ks⟩ := p
    by_cases hdd : d0 = d
    · subst hdd
      simp [addKeyword, lookupD, Ne.symm hne]
    · by_cases hd' : d0 = d'
      · subst hd'
        simp [addKeyword, lookupD, hdd]
      · simp [addKeyword, lookupD, hdd, hd', ih _ _ _ hne]

lemma combineK_nil : ∀ (o : Option (List String)), combineK o [] = o := by
  intro o; cases o <;> simp [combineK]

lemma combineK_cons :
    ∀ (o : Option (List String)) (k : String) (ks : List String),
      combineK o (k :: ks) = combineK (some (o.getD [] ++ [k])) ks := by
  intro o k ks; cases o <;> simp [combineK]

/-- The aggregation loop, seen through lookup: the keywords at a domain are
    whatever the accumulator held plus the keywords the URLs contribute to
    that domain, in order. -/
lemma lookupD_collect_aux :
    ∀ (urls : List String) (m : List (String × List String)) (d : String),
      lookupD (urls.foldl collectStep m) d =
        combineK (lookupD m d) (domKeys urls d) := by
  intro urls
  induction urls with
  | nil => intro m d; simp [domKeys, combineK_nil]
  | cons u rest ih =>
    intro m d
    rw [List.foldl_cons]
    rcases hk : extractKeyword (urlparse u).path with _ | k
    · have hstep : collectStep m u = m := by simp [collectStep, hk]
      have hdom : domKeys (u :: rest) d = domKeys rest d := by
        by_cases hnd : (urlparse u).netloc = d <;>
          simp [domKeys, List.filterMap_cons, hnd, hk]
      rw [hstep, ih, hdom]
    · by_cases hnd : (urlparse u).netloc = d
      · have hstep : collectStep m u = addKeyword m d k := by
          simp [collectStep, hk, hnd]
        have hdom : domKeys (u :: rest) d = k :: domKeys rest d := by
          simp [domKeys, List.filterMap_cons, hnd, hk]
        rw [hstep, ih, lookupD_addKeyword_self, hdom, combineK_cons]
      · have hstep : collectStep m u = addKeyword m (urlparse u).netloc k := by
          simp [collectStep, hk]
        have hdom : domKeys (u :: rest) d = domKeys rest d := by
          simp [domKeys, List.filterMap_cons, hnd, hk]
        rw [hstep, ih, lookupD_addKeyword_other _ _ _ _ (fun h => hnd h.symm), hdom]

/-- Per-domain deduplication, seen through lookup. -/
lemma lookupD_dedupeValues :
    ∀ (m : List (String × List String)) (d : String),
      lookupD (dedupeValues m) d = (lookupD m d).map List.dedup := by
  intro m
  induction m with
  | nil => intro d; rfl
  | cons p rest ih =>
    intro d
    obtain ⟨k, v⟩ := p
    by_cases hk : k = d
    · simp [dedupeValues, lookupD, hk]
    · simpa [dedupeValues, lookupD, hk] using ih d

/-- Membership in the keywords a URL batch contributes to a domain. -/
lemma mem_domKeys :
    ∀ (urls : List String) (d kw : String),
      kw ∈ domKeys urls d ↔ ∃ u ∈ urls, (urlparse u).netloc = d ∧
        extractKeyword (urlparse u).path = some kw := by
  intro urls d kw
  rw [domKeys, List.mem_filterMap]
  constructor
  · rintro ⟨u, hu, hf⟩
    by_cases hnd : (urlparse u).netloc = d
    · rw [if_pos hnd] at hf; exact ⟨u, hu, hnd, hf⟩
    · rw [if_neg hnd] at hf; simp at hf
  · rintro ⟨u, hu, hnd, hf⟩
    exact ⟨u, hu, by rw [if_pos hnd]; exact hf⟩

/-- The summary mapping at a domain, in closed form. -/
lemma lookupD_domainKeywordsOf :
    ∀ (urls : List String) (d : String),
      lookupD (domainKeywordsOf urls) d =
        (combineK none (domKeys urls d)).map List.dedup := by
  intro urls d
  rw [domainKeywordsOf, lookupD_dedupeValues, collectDomainKeywords,
    lookupD_collect_aux]
  rfl

/-- Claim C4 as amended: the summary maps each domain to the deduplicated set
    of keywords of its URLs, where a URL's keyword is its final path segment
    after stripping trailing slashes provided that segment is non-empty and
    not solely whitespace (`extractKeyword`); a domain appears exactly when
    one of its URLs yields a keyword; and the claim's concrete example holds. -/
theorem keyword_aggregation_amended :
    (∀ (urls : List String) (d : String) (ks : List String),
       lookupD (domainKeywordsOf urls) d = some ks →
       ∀ kw, (kw ∈ ks ↔ ∃ u ∈ urls, (urlparse u).netloc = d ∧
          extractKeyword (urlparse u).path = some kw)) ∧
    (∀ (urls : List String) (d : String),
       (lookupD (domainKeywordsOf urls) d).isSome = true ↔
         ∃ u ∈ urls, (urlparse u).netloc = d ∧
           (extractKeyword (urlparse u).path).isSome = true) ∧
    domainKeywordsOf ["https://a.com/foo", "https://a.com/bar", "https://b.com/foo"] =
      [("a.com", ["foo", "bar"]), ("b.com", ["foo"])] := by
  refine ⟨?_, ?_, by decide⟩
  · intro urls d ks hks kw
    rw [lookupD_domainKeywordsOf] at hks
    rcases hdk : domKeys urls d with _ | ⟨k0, kr⟩
    · rw [hdk] at hks; simp [combineK] at hks
    · rw [hdk] at hks
      simp only [combineK, Option.map_some] at hks
      have hks' : ks = (k0 :: kr).dedup := (Option.some.injEq _ _).mp hks |>.symm
      rw [hks', List.mem_dedup, ← hdk, mem_domKeys]
  · intro urls d
    rw [lookupD_domainKeywordsOf]
    constructor
    · intro hs
      rcases hdk : domKeys urls d with _ | ⟨k0, kr⟩
      · rw [hdk] at hs; simp [combineK] at hs
      · have : k0 ∈ domKeys urls d := by rw [hdk]; exact List.mem_cons_self _ _
        obtain ⟨u, hu, hnd, hf⟩ := (mem_domKeys urls d k0).mp this
        exact ⟨u, hu, hnd, by rw [hf]; rfl⟩
    · rintro ⟨u, hu, hnd, hs⟩
      obtain ⟨kw, hkw⟩ := Option.isSome_iff_exists.mp hs
      have hmem : kw ∈ domKeys urls d := (mem_domKeys urls d kw).mpr ⟨u, hu, hnd, hkw⟩
      rcases hdk : domKeys urls d with _ | ⟨k0, kr⟩
      · rw [hdk] at hmem; simp at hmem
      · rfl

/-- Witness for the amended C4 at the claim's own example. -/
theorem keyword_aggregation_witness :
    ("foo" ∈ ["foo", "bar"] ↔
      ∃ u ∈ ["https://a.com/foo", "https://a.com/bar", "https://b.com/foo"],
        (urlparse u).netloc = "a.com" ∧
        extractKeyword (urlparse u).path = some "foo") :=
  keyword_aggregation_amended.1
    ["https://a.com/foo", "https://a.com/bar", "https://b.com/foo"]
    "a.com" ["foo", "bar"] (by decide) "foo"

/-- Counterexample to C4 as stated: for `"https://a.com/ "` the last path
    segment after stripping trailing slashes is the non-empty string `" "`,
    so the claim's rule yields the keyword `" "` for domain `a.com`, but the
    code's extra `keyword.strip()` check makes the URL contribute nothing and
    the summary mapping is empty. -/
theorem keyword_aggregation_counterexample :
    (urlparse "https://a.com/ ").netloc = "a.com" ∧
    specLastSegmentKeyword (urlparse "https://a.com/ ").path = some " " ∧
    domainKeywordsOf ["https://a.com/ "] = [] := by decide

/-! ## Frame lemmas for the Telegram notifier -/

/-- An attempted send never touches the file system. -/
lemma caught_attempt_files (tr : Transport) (ev : SentEvent) (w : World) :
    (caught (attempt tr ev w)).files = w.files := by
  rw [attempt]; split <;> rfl

/-- An attempted send extends the delivery log by at most that event. -/
lemma caught_attempt_sent (tr : Transport) (ev : SentEvent) (w : World) :
    ∃ t, (caught (attempt tr ev w)).sent = w.sent ++ t ∧ ∀ e ∈ t, e = ev := by
  rw [attempt]; split
  · exact ⟨[ev], rfl, by simp⟩
  · exact ⟨[], by simp [caught], by simp⟩

/-- The per-URL message loop preserves the file system and only appends
    Telegram text messages to the delivery log. -/
lemma tgSendUrlLoop_frame (tr : Transport) (chat_id : String) :
    ∀ (urls : List String) (w : World),
      ∃ t, (caught (tgSendUrlLoop tr chat_id urls w)).files = w.files ∧
        (caught (tgSendUrlLoop tr chat_id urls w)).sent = w.sent ++ t ∧
        ∀ e ∈ t, ∃ txt, e = SentEvent.tgMessage chat_id txt := by
  intro urls
  induction urls with
  | nil => intro w; exact ⟨[], rfl, by simp [tgSendUrlLoop, caught], by simp⟩
  | cons u rest ih =>
    intro w
    rcases htr : tr (SentEvent.tgMessage chat_id u) with _ | _
    · have hstep : tgSendUrlLoop tr chat_id (u :: rest) w = .error w := by
        simp [tgSendUrlLoop, attempt, htr]
      exact ⟨[], by simp [hstep, caught], by simp [hstep, caught], by simp⟩
    · have hstep : tgSendUrlLoop tr chat_id (u :: rest) w =
          tgSendUrlLoop tr chat_id rest
            { w with sent := w.sent ++ [SentEvent.tgMessage chat_id u] } := by
        simp [tgSendUrlLoop, attempt, htr]
      obtain ⟨t, hfi, hse, ht⟩ :=
        ih { w with sent := w.sent ++ [SentEvent.tgMessage chat_id u] }
      rw [hstep]
      refine ⟨SentEvent.tgMessage chat_id u :: t, by simpa using hfi, ?_, ?_⟩
      · rw [hse]; simp
      · intro e he
        rcases List.mem_cons.mp he with he | he
        · exact ⟨u, he⟩
        · exact ht e he

/-- The tail of the notification (URL messages and the closing message)
    preserves the file system and only appends Telegram text messages. -/
lemma tgPhase2_frame (tr : Transport) (chat_id domain : String)
    (new_urls : List String) (w : World) :
    ∃ t, (caught (tgPhase2 tr chat_id domain new_urls w)).files = w.files ∧
      (caught (tgPhase2 tr chat_id domain new_urls w)).sent = w.sent ++ t ∧
      ∀ e ∈ t, ∃ txt, e = SentEvent.tgMessage chat_id txt := by
  rw [tgPhase2]
  by_cases h : new_urls = []
  · exact ⟨[], by simp [h, caught], by simp [h, caught], by simp⟩
  · rw [if_neg h]
    rcases hL : tgSendUrlLoop tr chat_id new_urls w with w2 | w2
    · obtain ⟨t, hfi, hse, ht⟩ := tgSendUrlLoop_frame tr chat_id new_urls w
      rw [hL] at hfi hse
      exact ⟨t, hfi, hse, ht⟩
    · obtain ⟨t1, hfi1, hse1, ht1⟩ := tgSendUrlLoop_frame tr chat_id new_urls w
      rw [hL] at hfi1 hse1
      obtain ⟨t2, hse2, ht2⟩ :=
        caught_attempt_sent tr (SentEvent.tgMessage chat_id (tgEndMessage domain)) w2
      refine ⟨t1 ++ t2, ?_, ?_, ?_⟩
      · rw [caught_attempt_files]; exact hfi1
      · rw [hse2]
        have hse1' : w2.sent = w.sent ++ t1 := hse1
        rw [hse1', List.append_assoc]
      · intro e he
        rcases List.mem_append.mp he with he | he
        · exact ht1 e he
        · exact ⟨tgEndMessage domain, by rw [ht2 e he]⟩

/-- When the document send fails, the whole update notification is a no-op:
    the archive stays and nothing is delivered. -/
lemma tg_update_doc_fail (tr : Transport) (cfg url target : String)
    (new_urls : List String) (f : String) (w : World)
    (hf : f ∈ w.files) (hc : pyOr target cfg ≠ "")
    (hdoc : tr (SentEvent.tgDocument (pyOr target cfg) f
      (tgFileCaption (urlparse url).netloc url new_urls)) = false) :
    TelegramNotifier.send_update_notification tr cfg url new_urls (some f) target w
      = w := by
  simp [TelegramNotifier.send_update_notification, hc, hf, attempt, hdoc]

/-- When the document send succeeds, the archive is unlinked and the delivery
    log records the document followed only by Telegram text messages. -/
lemma tg_update_doc_ok (tr : Transport) (cfg url target : String)
    (new_urls : List String) (f : String) (w : World)
    (hf : f ∈ w.files) (hc : pyOr target cfg ≠ "")
    (hdoc : tr (SentEvent.tgDocument (pyOr target cfg) f
      (tgFileCaption (urlparse url).netloc url new_urls)) = true) :
    ∃ t,
      (TelegramNotifier.send_update_notification tr cfg url new_urls (some f)
        target w).files = w.files.filter (fun g => g ≠ f) ∧
      (TelegramNotifier.send_update_notification tr cfg url new_urls (some f)
        target w).sent =
        w.sent ++ SentEvent.tgDocument (pyOr target cfg) f
          (tgFileCaption (urlparse url).netloc url new_urls) :: t ∧
      ∀ e ∈ t, ∃ txt, e = SentEvent.tgMessage (pyOr target cfg) txt := by
  have heq : TelegramNotifier.send_update_notification tr cfg url new_urls (some f)
      target w =
      caught (tgPhase2 tr (pyOr target cfg) (urlparse url).netloc new_urls
        (removeFile f { w with sent := w.sent ++
          [SentEvent.tgDocument (pyOr target cfg) f
            (tgFileCaption (urlparse url).netloc url new_urls)] })) := by
    simp [TelegramNotifier.send_update_notification, hc, hf, attempt, hdoc, caught]
  obtain ⟨t, hfi, hse, ht⟩ := tgPhase2_frame tr (pyOr target cfg)
    (urlparse url).netloc new_urls
    (removeFile f { w with sent := w.sent ++
      [SentEvent.tgDocument (pyOr target cfg) f
        (tgFileCaption (urlparse url).netloc url new_urls)] })
  refine ⟨t, ?_, ?_, ht⟩
  · rw [heq, hfi]; rfl
  · rw [heq, hse]; simp [removeFile]

/-! ## Archive lifecycle -/

/-- Claim C6: the dated archive is deleted only after the notification
    carrying it has been successfully delivered; when the send carrying it
    fails, the archive is left in place.  Stated for both channels that
    handle archives: the Telegram notifier (document send inside `try`,
    unlink after it) and the email bot (unlink only when `send_email`
    reported success). -/
theorem archive_lifecycle :
    ∀ (tr : Transport) (cfg_target_chat url target : String)
      (new_urls : List String) (f : String) (w : World),
      f ∈ w.files → pyOr target cfg_target_chat ≠ "" →
      ((tr (SentEvent.tgDocument (pyOr target cfg_target_chat) f
          (tgFileCaption (urlparse url).netloc url new_urls)) = false →
         TelegramNotifier.send_update_notification tr cfg_target_chat url
           new_urls (some f) target w = w) ∧
       (tr (SentEvent.tgDocument (pyOr target cfg_target_chat) f
          (tgFileCaption (urlparse url).netloc url new_urls)) = true →
         f ∉ (TelegramNotifier.send_update_notification tr cfg_target_chat url
           new_urls (some f) target w).files ∧
         SentEvent.tgDocument (pyOr target cfg_target_chat) f
            (tgFileCaption (urlparse url).netloc url new_urls) ∈
           (TelegramNotifier.send_update_notification tr cfg_target_chat url
             new_urls (some f) target w).sent) ∧
       (f ∉ (TelegramNotifier.send_update_notification tr cfg_target_chat url
           new_urls (some f) target w).files →
         tr (SentEvent.tgDocument (pyOr target cfg_target_chat) f
           (tgFileCaption (urlparse url).netloc url new_urls)) = true)) ∧
      (∀ (smtpOk : Bool) (ecfg : EmailConfig) (target_email : String),
        pyOr target_email ecfg.toEmail ≠ "" →
        ((¬ (ecfg.toEmail ≠ "" ∧ smtpOk = true ∧
            tr (SentEvent.email (pyOr ecfg.fromEmail ecfg.username) ecfg.toEmail
              ("✨ " ++ (urlparse url).netloc ++ " Sitemap更新通知")
              (EmailBot.updateHtml (urlparse url).netloc url new_urls) [f]) = true) →
           EmailBot.send_update_notification tr smtpOk ecfg url new_urls (some f)
             target_email w = w) ∧
         ((ecfg.toEmail ≠ "" ∧ smtpOk = true ∧
            tr (SentEvent.email (pyOr ecfg.fromEmail ecfg.username) ecfg.toEmail
              ("✨ " ++ (urlparse url).netloc ++ " Sitemap更新通知")
              (EmailBot.updateHtml (urlparse url).netloc url new_urls) [f]) = true) →
           f ∉ (EmailBot.send_update_notification tr smtpOk ecfg url new_urls
             (some f) target_email w).files ∧
           SentEvent.email (pyOr ecfg.fromEmail ecfg.username) ecfg.toEmail
              ("✨ " ++ (urlparse url).netloc ++ " Sitemap更新通知")
              (EmailBot.updateHtml (urlparse url).netloc url new_urls) [f] ∈
             (EmailBot.send_update_notification tr smtpOk ecfg url new_urls
               (some f) target_email w).sent))) := by
  intro tr cfgc url target new_urls f w hf hc
  refine ⟨⟨?_, ?_, ?_⟩, ?_⟩
  · intro hdoc
    exact tg_update_doc_fail tr cfgc url target new_urls f w hf hc hdoc
  · intro hdoc
    obtain ⟨t, hfi, hse, ht⟩ := tg_update_doc_ok tr cfgc url target new_urls f w hf hc hdoc
    constructor
    · rw [hfi]; simp
    · rw [hse]; simp
  · intro hnf
    rcases hdoc : tr (SentEvent.tgDocument (pyOr target cfgc) f
        (tgFileCaption (urlparse url).netloc url new_urls)) with _ | _
    · exfalso
      rw [tg_update_doc_fail tr cfgc url target new_urls f w hf hc hdoc] at hnf
      exact hnf hf
    · rfl
  · intro smtpOk ecfg te hg
    have hatt : [f].filter (fun a => decide (a ∈ w.files)) = [f] := by simp [hf]
    constructor
    · intro hfail
      by_cases h1 : ecfg.toEmail = ""
      · simp [EmailBot.send_update_notification, hg, EmailBot.send_email, h1]
      · rcases hsm : smtpOk with _ | _
        · simp [EmailBot.send_update_notification, hg, EmailBot.send_email, h1, hsm, hf]
        · have htr : tr (SentEvent.email (pyOr ecfg.fromEmail ecfg.username)
              ecfg.toEmail ("✨ " ++ (urlparse url).netloc ++ " Sitemap更新通知")
              (EmailBot.updateHtml (urlparse url).netloc url new_urls) [f]) = false := by
            rcases htr : tr (SentEvent.email (pyOr ecfg.fromEmail ecfg.username)
                ecfg.toEmail ("✨ " ++ (urlparse url).netloc ++ " Sitemap更新通知")
                (EmailBot.updateHtml (urlparse url).netloc url new_urls) [f]) with _ | _
            · rfl
            · exact absurd ⟨h1, hsm, htr⟩ hfail
          simp [EmailBot.send_update_notification, hg, EmailBot.send_email, h1,
            hsm, hf, hatt, htr]
    · rintro ⟨h1, hsm, htr⟩
      subst hsm
      have heq : EmailBot.send_update_notification tr true ecfg url new_urls
          (some f) te w =
          removeFile f { w with sent := w.sent ++
            [SentEvent.email (pyOr ecfg.fromEmail ecfg.username) ecfg.toEmail
              ("✨ " ++ (urlparse url).netloc ++ " Sitemap更新通知")
              (EmailBot.updateHtml (urlparse url).netloc url new_urls) [f]] } := by
        simp [EmailBot.send_update_notification, hg, EmailBot.send_email, h1,
          hf, hatt, htr]
      rw [heq]
      constructor
      · simp [removeFile]
      · simp [removeFile]

/-- Witness for C6: with an always-succeeding transport the Telegram notifier
    deletes the delivered archive. -/
theorem archive_lifecycle_witness :
    "arch.xml" ∉ (TelegramNotifier.send_update_notification trueTransport "chat"
      "https://a.com/sitemap.xml" [] (some "arch.xml") ""
      ⟨["arch.xml"], []⟩).files :=
  ((archive_lifecycle trueTransport "chat" "https://a.com/sitemap.xml" ""
    [] "arch.xml" ⟨["arch.xml"], []⟩ (by decide) (by decide)).1.2.1 rfl).1

/-! ## Cross-channel frame effect of the Telegram unlink -/

/-- Claim C9: in a broadcast of `send_update_notification` over the registry
    built by `init_notifiers` (Telegram first, then Email), with every
    delivery succeeding and the dated file present, the Telegram channel
    receives the document and unlinks the file, so the file is gone at the
    end, and every email sent during the broadcast carries no attachment:
    the channel invoked after Telegram takes the no-file branch. -/
theorem telegram_unlink_frame_effect :
    ∀ (cfg_target_chat : String) (ecfg : EmailConfig) (url : String)
      (new_urls : List String) (f : String) (w : World),
      cfg_target_chat ≠ "" → ecfg.toEmail ≠ "" → f ∈ w.files →
      SentEvent.tgDocument cfg_target_chat f
          (tgFileCaption (urlparse url).netloc url new_urls) ∈
        (NotificationManager.send_to_all
          (init_notifiers trueTransport true cfg_target_chat ecfg)
          (Call.update url new_urls (some f) "") w).world.sent ∧
      f ∉ (NotificationManager.send_to_all
          (init_notifiers trueTransport true cfg_target_chat ecfg)
          (Call.update url new_urls (some f) "") w).world.files ∧
      (∀ (sender recipient subject body : String) (atts : List String),
         SentEvent.email sender recipient subject body atts ∈
           (NotificationManager.send_to_all
             (init_notifiers trueTransport true cfg_target_chat ecfg)
             (Call.update url new_urls (some f) "") w).world.sent →
         SentEvent.email sender recipient subject body atts ∈ w.sent ∨
           atts = []) := by
  intro cfgc ecfg url new_urls f w hc he hf
  have hout : (NotificationManager.send_to_all
      (init_notifiers trueTransport true cfgc ecfg)
      (Call.update url new_urls (some f) "") w).world =
      EmailNotifier.send_update_notification trueTransport true ecfg url new_urls
        (some f) ""
        (TelegramNotifier.send_update_notification trueTransport cfgc url new_urls
          (some f) "" w) := rfl
  obtain ⟨t, hfi, hse, ht⟩ := tg_update_doc_ok trueTransport cfgc url "" new_urls
    f w hf (by simpa [pyOr] using hc) rfl
  have hpy : pyOr "" cfgc = cfgc := by simp [pyOr]
  rw [hpy] at hse ht
  have hfT : f ∉ (TelegramNotifier.send_update_notification trueTransport cfgc url
      new_urls (some f) "" w).files := by
    rw [hfi]; simp
  have hemail : EmailNotifier.send_update_notification trueTransport true ecfg url
      new_urls (some f) ""
      (TelegramNotifier.send_update_notification trueTransport cfgc url new_urls
        (some f) "" w) =
      { TelegramNotifier.send_update_notification trueTransport cfgc url new_urls
          (some f) "" w with
        sent := (TelegramNotifier.send_update_notification trueTransport cfgc url
          new_urls (some f) "" w).sent ++
          [SentEvent.email (pyOr ecfg.fromEmail ecfg.username) ecfg.toEmail
            ("✨ " ++ (urlparse url).netloc ++ " Sitemap更新通知")
            (EmailBot.updateHtml (urlparse url).netloc url new_urls) []] } := by
    simp [EmailNotifier.send_update_notification, EmailBot.send_update_notification,
      EmailBot.send_email, pyOr, he, hfT, trueTransport]
  rw [hout, hemail, hse]
  refine ⟨?_, ?_, ?_⟩
  · simp
  · simpa using hfT
  · intro sender recipient subject body atts hmem
    rcases List.mem_append.mp hmem with h2 | h2
    · rcases List.mem_append.mp h2 with h3 | h3
      · exact Or.inl h3
      · rcases List.mem_cons.mp h3 with h4 | h4
        · exact absurd h4 (by simp)
        · obtain ⟨txt, hx⟩ := ht _ h4
          exact absurd hx (by simp)
    · have h2' := List.mem_singleton.mp h2
      simp only [SentEvent.email.injEq] at h2'
      exact Or.inr h2'.2.2.2.2

/-- Witness for C9 at a concrete broadcast: after Telegram delivers and
    unlinks, the file is gone from the final world. -/
theorem telegram_unlink_frame_effect_witness :
    "arch2.xml" ∉ (NotificationManager.send_to_all
      (init_notifiers trueTransport true "chat" ⟨"to@x", "from@x", "user"⟩)
      (Call.update "https://a.com/sitemap.xml" ["https://a.com/p"]
        (some "arch2.xml") "") ⟨["arch2.xml"], []⟩).world.files :=
  (telegram_unlink_frame_effect "chat" ⟨"to@x", "from@x", "user"⟩
    "https://a.com/sitemap.xml" ["https://a.com/p"] "arch2.xml"
    ⟨["arch2.xml"], []⟩ (by decide) (by decide) (by decide)).2.1

/-! ## EmailNotifier.send_message ignores the destination override -/

/-- `send_email` either leaves the delivery log alone or appends exactly one
    email addressed to the configured `to_email`. -/
lemma send_email_sent (tr : Transport) (smtpOk : Bool) (cfg : EmailConfig)
    (subject body : String) (attachments : List String) (w : World) :
    (EmailBot.send_email tr smtpOk cfg subject body attachments w).1.sent =
      w.sent ∨
    (EmailBot.send_email tr smtpOk cfg subject body attachments w).1.sent =
      w.sent ++ [SentEvent.email (pyOr cfg.fromEmail cfg.username) cfg.toEmail
        subject body (attachments.filter (fun a => decide (a ∈ w.files)))] := by
  simp only [EmailBot.send_email]
  split
  · exact Or.inl rfl
  · split
    · exact Or.inl rfl
    · split
      · exact Or.inr rfl
      · exact Or.inl rfl

/-- Claim C10: `EmailNotifier.send_message` uses the supplied target only in
    the is-a-recipient-configured guard: any email it produces is addressed
    to the configured `to_email` with subject `"RSS通知"` and the wrapped
    body, never to the target; and when `to_email` is configured the result
    does not depend on the target at all. -/
theorem email_send_message_ignores_target :
    ∀ (tr : Transport) (smtpOk : Bool) (cfg : EmailConfig)
      (message target : String) (w : World),
      (∀ ev ∈ (EmailNotifier.send_message tr smtpOk cfg message target w).sent,
         ev ∈ w.sent ∨
           ev = SentEvent.email (pyOr cfg.fromEmail cfg.username) cfg.toEmail
             "RSS通知" (emailHtmlWrap message) []) ∧
      (cfg.toEmail ≠ "" → ∀ target',
         EmailNotifier.send_message tr smtpOk cfg message target w =
           EmailNotifier.send_message tr smtpOk cfg message target' w) := by
  intro tr smtpOk cfg message target w
  constructor
  · intro ev hev
    by_cases hg : pyOr target cfg.toEmail = ""
    · simp only [EmailNotifier.send_message, if_pos hg] at hev
      exact Or.inl hev
    · simp only [EmailNotifier.send_message, if_neg hg] at hev
      rcases send_email_sent tr smtpOk cfg "RSS通知" (emailHtmlWrap message) [] w
        with h | h
      · rw [h] at hev
        exact Or.inl hev
      · rw [h] at hev
        rcases List.mem_append.mp hev with h2 | h2
        · exact Or.inl h2
        · exact Or.inr (by simpa using List.mem_singleton.mp h2)
  · intro hne target'
    have key : ∀ s : String, pyOr s cfg.toEmail ≠ "" := by
      intro s
      by_cases hs : s = "" <;> simp [pyOr, hs, hne]
    simp only [EmailNotifier.send_message, if_neg (key target), if_neg (key target')]

/-- Witness for C10: with a configured recipient, changing the target does
    not change the outcome. -/
theorem email_send_message_ignores_target_witness :
    EmailNotifier.send_message trueTransport true ⟨"to@x", "from@x", "user"⟩
        "hello" "other@y" ⟨[], []⟩ =
      EmailNotifier.send_message trueTransport true ⟨"to@x", "from@x", "user"⟩
        "hello" "" ⟨[], []⟩ :=
  (email_send_message_ignores_target trueTransport true ⟨"to@x", "from@x", "user"⟩
    "hello" "other@y" ⟨[], []⟩).2 (by decide) ""
